import Mathlib

/-!
Verification of the napi project bridge (`crates/napi/src/next_api/project.rs`)
and the client-chunks transition
(`crates/next-core/src/next_client_chunks/client_chunks_transition.rs`)
against their natural-language specification.

The Rust code is shallowly embedded: plain data is translated to Lean
structures and inductives, fallible code returns `Except`, and calls into the
external computation engine are passed in explicitly as function arguments.
-/

set_option autoImplicit false

namespace NextApi

/-- Opaque handle to a buildable target (`EndpointVc`).  Identity is a
computation-graph reference; this core only threads it through. -/
structure EndpointVc where
  id : Nat
deriving DecidableEq, Repr

/-- `MemoryBackend` of the computation engine; constructed with the memory
budget in `MemoryBackend::new(limit)`. -/
structure MemoryBackend where
  memory_limit : Nat
deriving DecidableEq, Repr

/-- `TurboTasks<MemoryBackend>`: the computation-engine handle, owning its
backend. -/
structure TurboTasks where
  backend : MemoryBackend
deriving DecidableEq, Repr

/-- `VcArc<T>`: a graph reference paired with the owning engine handle. -/
structure VcArc (α : Type) where
  turbo_tasks : TurboTasks
  value : α
deriving DecidableEq, Repr

/-- `External<T>`: a value handed across the host boundary. -/
structure External (α : Type) where
  value : α
deriving DecidableEq, Repr

/-- The `Route` tagged variant from `next_api::route`. -/
inductive Route
  | Page (html_endpoint data_endpoint : EndpointVc)
  | PageApi (endpoint : EndpointVc)
  | AppPage (html_endpoint rsc_endpoint : EndpointVc)
  | AppRoute (endpoint : EndpointVc)
  | Conflict
deriving DecidableEq, Repr

/-- `NapiRoute`: the host-visible route record.  All endpoint slots are
optional; `Default` in the Rust source fills the absent ones with `None`
(and the strings with empty strings). -/
structure NapiRoute where
  pathname : String := ""
  type : String := ""
  endpoint : Option (External (VcArc EndpointVc)) := none
  html_endpoint : Option (External (VcArc EndpointVc)) := none
  rsc_endpoint : Option (External (VcArc EndpointVc)) := none
  data_endpoint : Option (External (VcArc EndpointVc)) := none
deriving DecidableEq, Repr

/-- `NapiRoute::from_route`: converts one `Route` variant into one
`NapiRoute` record, filling exactly the slots of the variant and leaving the
rest to `Default` (absent). -/
def NapiRoute.from_route (pathname : String) (value : Route)
    (turbo_tasks : TurboTasks) : NapiRoute :=
  let convert_endpoint : EndpointVc → Option (External (VcArc EndpointVc)) :=
    fun endpoint => some ⟨⟨turbo_tasks, endpoint⟩⟩
  match value with
  | Route.Page html_endpoint data_endpoint =>
      { pathname := pathname, type := "page",
        html_endpoint := convert_endpoint html_endpoint,
        data_endpoint := convert_endpoint data_endpoint }
  | Route.PageApi endpoint =>
      { pathname := pathname, type := "page-api",
        endpoint := convert_endpoint endpoint }
  | Route.AppPage html_endpoint rsc_endpoint =>
      { pathname := pathname, type := "app-page",
        html_endpoint := convert_endpoint html_endpoint,
        rsc_endpoint := convert_endpoint rsc_endpoint }
  | Route.AppRoute endpoint =>
      { pathname := pathname, type := "app-route",
        endpoint := convert_endpoint endpoint }
  | Route.Conflict =>
      { pathname := pathname, type := "conflict" }

/-- Middleware configuration: the raw runtime identifier (to be serialized
into the closed enumeration of recognized runtimes) and the optional matcher
list. -/
structure MiddlewareConfig where
  runtime : String
  matcher : Option (List String)
deriving DecidableEq, Repr

/-- `Middleware` from `next_api::project`. -/
structure Middleware where
  endpoint : EndpointVc
  config : MiddlewareConfig
deriving DecidableEq, Repr

/-- Modelled from the spec: `serde_enum_to_string` (in `super::utils`, not
under src/) maps the middleware runtime identifier into the closed
enumeration of recognized runtimes ("edge" / "nodejs" per §3 of the spec) and
fails on any identifier outside that enumeration. -/
def serde_enum_to_string (runtime : String) : Except String String :=
  if runtime = "edge" ∨ runtime = "nodejs" then Except.ok runtime
  else Except.error ("unrecognized runtime: " ++ runtime)

/-- `NapiMiddleware`: host-visible middleware record. -/
structure NapiMiddleware where
  endpoint : External (VcArc EndpointVc)
  runtime : String
  matcher : Option (List String)
deriving DecidableEq, Repr

/-- `NapiMiddleware::from_middleware`: fallible conversion; the runtime
identifier is serialized with `serde_enum_to_string` and a serialization
failure is propagated with `?`. -/
def NapiMiddleware.from_middleware (value : Middleware)
    (turbo_tasks : TurboTasks) : Except String NapiMiddleware := do
  let runtime ← serde_enum_to_string value.config.runtime
  Except.ok { endpoint := ⟨⟨turbo_tasks, value.endpoint⟩⟩,
              runtime := runtime,
              matcher := value.config.matcher }

/-- The `Entrypoints` computation snapshot: a map from pathname to `Route`
(embedded as an association list) plus an optional single middleware. -/
structure Entrypoints where
  routes : List (String × Route)
  middleware : Option Middleware
deriving DecidableEq, Repr

/-- `NapiEntrypoints`: the host-visible converted snapshot. -/
structure NapiEntrypoints where
  routes : List NapiRoute
  middleware : Option NapiMiddleware
deriving DecidableEq, Repr

/-- The conversion step passed to `subscribe` by
`project_entrypoints_subscribe`: maps each `(pathname, route)` entry through
`NapiRoute::from_route`, converts the optional middleware (transposing and
propagating its error with `?`), and wraps the single resulting
`NapiEntrypoints` in a one-element `vec!`. -/
def project_entrypoints_subscribe_convert (turbo_tasks : TurboTasks)
    (entrypoints : Entrypoints) : Except String (List NapiEntrypoints) := do
  let middleware ← match entrypoints.middleware with
    | some m => (NapiMiddleware.from_middleware m turbo_tasks).map some
    | none => Except.ok none
  Except.ok [{ routes := entrypoints.routes.map
                 (fun p => NapiRoute.from_route p.1 p.2 turbo_tasks),
               middleware := middleware }]

/-- IEEE-754 double, modelled abstractly: NaN, the two infinities, and finite
values (every finite f64 value is a rational, so the finite case carries a
rational; the model is a superset of the representable values). -/
inductive F64
  | nan
  | posInf
  | negInf
  | finite (val : ℚ)
deriving DecidableEq, Repr

/-- `usize::MAX` on the 64-bit targets this crate builds for. -/
def USIZE_MAX : Nat := 2 ^ 64 - 1

/-- Semantics of the primitive Rust cast `m as usize` for `m : f64`
(Rust reference: float-to-int `as` casts saturate — the value is truncated
toward zero and clamped to the target range, and NaN casts to 0).  For a
nonnegative value truncation toward zero is the floor. -/
def f64_as_usize : F64 → Nat
  | F64.nan => 0
  | F64.negInf => 0
  | F64.posInf => USIZE_MAX
  | F64.finite q => if q < 0 then 0 else min (Int.toNat ⌊q⌋) USIZE_MAX

/-- `ProjectOptions` from `next_api::project`: the target of the
`Into<ProjectOptions>` conversion.  It has no memory-limit field. -/
structure ProjectOptions where
  root_path : String
  project_path : String
  watch : Bool
deriving DecidableEq, Repr

/-- `NapiProjectOptions`: the options record received from the host. -/
structure NapiProjectOptions where
  root_path : String
  project_path : String
  watch : Bool
  memory_limit : Option F64
deriving DecidableEq, Repr

/-- `impl Into<ProjectOptions> for NapiProjectOptions`: copies the three
path/watch fields and drops `memory_limit`. -/
def NapiProjectOptions.into (self : NapiProjectOptions) : ProjectOptions :=
  { root_path := self.root_path,
    project_path := self.project_path,
    watch := self.watch }

/-- The `Project` root entity, holding its construction options. -/
structure ProjectVc where
  options : ProjectOptions
deriving DecidableEq, Repr

/-- Modelled from the spec: `ProjectVc::new` (crate `next_api`, not under
src/) "validates that project path is nested under root path; construction
failure (path outside root) is reported as a configuration error, not
silently corrected".  Nesting is modelled as path-prefix containment on the
character sequences of the two paths. -/
def ProjectVc.new (options : ProjectOptions) : Except String ProjectVc :=
  if options.root_path.data.isPrefixOf options.project_path.data then
    Except.ok { options := options }
  else
    Except.error "project path must be nested under root path"

/-- The memory budget expression inside `project_new`:
`options.memory_limit.map(|m| m as usize).unwrap_or(usize::MAX)`. -/
def memory_backend_budget (options : NapiProjectOptions) : Nat :=
  (options.memory_limit.map f64_as_usize).getD USIZE_MAX

/-- `project_new`: builds the engine handle with a `MemoryBackend` sized by
`memory_backend_budget`, converts the options with `Into`, constructs the
`ProjectVc` (propagating its failure with `?`), and returns the external
handle pairing the engine with the project. -/
def project_new (options : NapiProjectOptions) :
    Except String (External (VcArc ProjectVc)) := do
  let turbo_tasks : TurboTasks :=
    { backend := { memory_limit := memory_backend_budget options } }
  let options : ProjectOptions := options.into
  let project ← ProjectVc.new options
  Except.ok { value := { turbo_tasks := turbo_tasks, value := project } }

end NextApi

namespace NextCore

open NextApi (TurboTasks)

/-- `CompileTimeInfoVc`: opaque compile-time info handle. -/
structure CompileTimeInfoVc where
  id : Nat
deriving DecidableEq, Repr

/-- `ModuleOptionsContextVc`: opaque module-options handle. -/
structure ModuleOptionsContextVc where
  id : Nat
deriving DecidableEq, Repr

/-- `ResolveOptionsContextVc`: opaque resolve-options handle. -/
structure ResolveOptionsContextVc where
  id : Nat
deriving DecidableEq, Repr

/-- `EcmascriptChunkingContextVc`: opaque chunking-context handle. -/
structure EcmascriptChunkingContextVc where
  id : Nat
deriving DecidableEq, Repr

/-- `EcmascriptChunkPlaceableVc`: handle to a module viewed through its
chunk-placeable capability. -/
structure EcmascriptChunkPlaceableVc where
  id : Nat
deriving DecidableEq, Repr

/-- `ModuleAssetContextVc`: opaque module-asset-context handle. -/
structure ModuleAssetContextVc where
  id : Nat
deriving DecidableEq, Repr

/-- `ModuleVc`: a module-graph node — either an ordinary asset or a
`WithChunksAsset` wrapper produced by `.into()`. -/
inductive ModuleVc
  | asset (id : Nat)
  | withChunksAsset (placeable : EcmascriptChunkPlaceableVc)
      (chunking_context : EcmascriptChunkingContextVc)
deriving DecidableEq, Repr

/-- `WithChunksAssetVc` as constructed by `WithChunksAssetVc::new`. -/
structure WithChunksAssetVc where
  asset : EcmascriptChunkPlaceableVc
  chunking_context : EcmascriptChunkingContextVc
deriving DecidableEq, Repr

/-- `WithChunksAssetVc::new`. -/
def WithChunksAssetVc.new (asset : EcmascriptChunkPlaceableVc)
    (chunking_context : EcmascriptChunkingContextVc) : WithChunksAssetVc :=
  { asset := asset, chunking_context := chunking_context }

/-- `.into()` from `WithChunksAssetVc` to `ModuleVc`. -/
def WithChunksAssetVc.into (self : WithChunksAssetVc) : ModuleVc :=
  ModuleVc.withChunksAsset self.asset self.chunking_context

/-- The type of the external engine call
`EcmascriptChunkPlaceableVc::resolve_from`: it may fail with an engine error,
and on success reports whether the module resolves as chunk placeable.  The
embedding passes the engine's resolution oracle in explicitly. -/
def ResolveFrom : Type :=
  ModuleVc → Except String (Option EcmascriptChunkPlaceableVc)

/-- `NextClientChunksTransition`: construction-time client context values,
immutable after construction. -/
structure NextClientChunksTransition where
  client_compile_time_info : CompileTimeInfoVc
  client_module_options_context : ModuleOptionsContextVc
  client_resolve_options_context : ResolveOptionsContextVc
  client_chunking_context : EcmascriptChunkingContextVc
deriving DecidableEq, Repr

/-- `Transition::process_compile_time_info` for
`NextClientChunksTransition`: ignores the upstream info and returns the
stored client compile-time info. -/
def NextClientChunksTransition.process_compile_time_info
    (self : NextClientChunksTransition)
    (_compile_time_info : CompileTimeInfoVc) : CompileTimeInfoVc :=
  self.client_compile_time_info

/-- `Transition::process_module_options_context` for
`NextClientChunksTransition`. -/
def NextClientChunksTransition.process_module_options_context
    (self : NextClientChunksTransition)
    (_context : ModuleOptionsContextVc) : ModuleOptionsContextVc :=
  self.client_module_options_context

/-- `Transition::process_resolve_options_context` for
`NextClientChunksTransition`. -/
def NextClientChunksTransition.process_resolve_options_context
    (self : NextClientChunksTransition)
    (_context : ResolveOptionsContextVc) : ResolveOptionsContextVc :=
  self.client_resolve_options_context

/-- `Transition::process_module` for `NextClientChunksTransition`: resolves
the asset's chunk-placeable capability through the engine (propagating an
engine error with `?`); wraps a placeable module in a `WithChunksAsset`
associated with the stored client chunking context, and passes any other
module through unchanged. -/
def NextClientChunksTransition.process_module (resolve_from : ResolveFrom)
    (self : NextClientChunksTransition) (asset : ModuleVc)
    (_context : ModuleAssetContextVc) : Except String ModuleVc := do
  match ← resolve_from asset with
  | some placeable =>
      Except.ok (WithChunksAssetVc.new placeable self.client_chunking_context).into
  | none => Except.ok asset

end NextCore

namespace NextApi

/-- Spec-side definition (§4.2/§8 of the spec): the discriminant string
literal matching each `Route` variant tag. -/
def Route.variantTag : Route → String
  | Route.Page _ _ => "page"
  | Route.PageApi _ => "page-api"
  | Route.AppPage _ _ => "app-page"
  | Route.AppRoute _ => "app-route"
  | Route.Conflict => "conflict"

/-- Spec-side definition (§3/§8 of the spec): each variant's defined slot
set, as presence flags in the order
(`endpoint`, `html_endpoint`, `rsc_endpoint`, `data_endpoint`). -/
def Route.variantSlots : Route → Bool × Bool × Bool × Bool
  | Route.Page _ _ => (false, true, false, true)
  | Route.PageApi _ => (true, false, false, false)
  | Route.AppPage _ _ => (false, true, true, false)
  | Route.AppRoute _ => (true, false, false, false)
  | Route.Conflict => (false, false, false, false)

/-- The set of present endpoint slots of a converted record, as presence
flags in the order (`endpoint`, `html_endpoint`, `rsc_endpoint`,
`data_endpoint`). -/
def NapiRoute.presentSlots (r : NapiRoute) : Bool × Bool × Bool × Bool :=
  (r.endpoint.isSome, r.html_endpoint.isSome,
   r.rsc_endpoint.isSome, r.data_endpoint.isSome)

end NextApi

namespace NextApi

/-- Helper: bind on a successful `Except` computation. -/
@[simp] theorem exceptBind_ok {ε α β : Type} (a : α) (f : α → Except ε β) :
    (Except.ok a : Except ε α) >>= f = f a := rfl

/-- Helper: bind on a failed `Except` computation propagates the error. -/
@[simp] theorem exceptBind_error {ε α β : Type} (e : ε) (f : α → Except ε β) :
    (Except.error e : Except ε α) >>= f = Except.error e := rfl

/-- Helper: `Except.map` on a failed computation propagates the error. -/
@[simp] theorem exceptMap_error {ε α β : Type} (f : α → β) (e : ε) :
    Except.map f (Except.error e : Except ε α) = Except.error e := rfl

/-- Helper: `Except.map` on a successful computation maps the value. -/
@[simp] theorem exceptMap_ok {ε α β : Type} (f : α → β) (a : α) :
    Except.map f (Except.ok a : Except ε α) = Except.ok (f a) := rfl

/-- C2: `NapiRoute::from_route` produces exactly one record whose present
endpoint slots exactly match the variant's slot set and whose discriminant
string matches the variant tag; the pathname is carried through. -/
theorem from_route_shape (pathname : String) (value : Route)
    (turbo_tasks : TurboTasks) :
    (NapiRoute.from_route pathname value turbo_tasks).presentSlots
        = value.variantSlots ∧
    (NapiRoute.from_route pathname value turbo_tasks).type
        = value.variantTag ∧
    (NapiRoute.from_route pathname value turbo_tasks).pathname = pathname := by
  cases value <;>
    simp [NapiRoute.from_route, NapiRoute.presentSlots, Route.variantSlots,
      Route.variantTag]

/-- C3: if the middleware's runtime identifier cannot be mapped into the
closed enumeration of recognized runtimes, `NapiMiddleware::from_middleware`
returns that error and the whole `Entrypoints` conversion for the cycle
fails with it (no partial `NapiEntrypoints` value is produced). -/
theorem middleware_runtime_error_fails_whole_conversion
    (turbo_tasks : TurboTasks) (entrypoints : Entrypoints) (m : Middleware)
    (err : String) (hm : entrypoints.middleware = some m)
    (hr : serde_enum_to_string m.config.runtime = Except.error err) :
    NapiMiddleware.from_middleware m turbo_tasks = Except.error err ∧
    project_entrypoints_subscribe_convert turbo_tasks entrypoints
        = Except.error err := by
  have hmw : NapiMiddleware.from_middleware m turbo_tasks
      = Except.error err := by
    simp [NapiMiddleware.from_middleware, hr]
  refine ⟨hmw, ?_⟩
  simp [project_entrypoints_subscribe_convert, hm, hmw]

/-- Witness for C3 at a concrete middleware whose runtime is "deno". -/
theorem middleware_runtime_error_fails_whole_conversion_witness :
    NapiMiddleware.from_middleware
        ⟨⟨7⟩, ⟨"deno", none⟩⟩ ⟨⟨0⟩⟩
      = Except.error "unrecognized runtime: deno" ∧
    project_entrypoints_subscribe_convert ⟨⟨0⟩⟩
        ⟨[], some ⟨⟨7⟩, ⟨"deno", none⟩⟩⟩
      = Except.error "unrecognized runtime: deno" :=
  middleware_runtime_error_fails_whole_conversion ⟨⟨0⟩⟩
    ⟨[], some ⟨⟨7⟩, ⟨"deno", none⟩⟩⟩ ⟨⟨7⟩, ⟨"deno", none⟩⟩
    "unrecognized runtime: deno" rfl rfl

/-- C7: whenever the conversion step passed to `subscribe` by
`project_entrypoints_subscribe` returns a list of delivered values, that
list contains exactly one `NapiEntrypoints` element. -/
theorem entrypoints_convert_delivers_exactly_one (turbo_tasks : TurboTasks)
    (entrypoints : Entrypoints) (delivered : List NapiEntrypoints)
    (h : project_entrypoints_subscribe_convert turbo_tasks entrypoints
        = Except.ok delivered) :
    delivered.length = 1 := by
  cases hm : entrypoints.middleware with
  | none =>
      simp [project_entrypoints_subscribe_convert, hm] at h
      subst h
      rfl
  | some m =>
      cases hmw : NapiMiddleware.from_middleware m turbo_tasks with
      | error e =>
          simp [project_entrypoints_subscribe_convert, hm, hmw] at h
      | ok napi =>
          simp [project_entrypoints_subscribe_convert, hm, hmw] at h
          subst h
          rfl

/-- Witness for C7 at a concrete empty snapshot. -/
theorem entrypoints_convert_delivers_exactly_one_witness :
    ([⟨[], none⟩] : List NapiEntrypoints).length = 1 :=
  entrypoints_convert_delivers_exactly_one ⟨⟨0⟩⟩ ⟨[], none⟩ [⟨[], none⟩] rfl

end NextApi

namespace NextApi

/-- C1: when the project path is not nested under the root path,
`project_new` fails with the configuration error and never returns a
project handle. -/
theorem project_new_rejects_non_nested_path (options : NapiProjectOptions)
    (h : ¬ options.root_path.data.isPrefixOf options.project_path.data) :
    project_new options
      = Except.error "project path must be nested under root path" := by
  simp [project_new, NapiProjectOptions.into, ProjectVc.new, h]

/-- Witness for C1 at root "/repo" and project path "/other". -/
theorem project_new_rejects_non_nested_path_witness :
    project_new ⟨"/repo", "/other", true, none⟩
      = Except.error "project path must be nested under root path" :=
  project_new_rejects_non_nested_path ⟨"/repo", "/other", true, none⟩
    (by decide)

/-- C8: with `memory_limit` absent the memory backend is constructed with
an unbounded budget (`usize::MAX`); the budget is handed to the engine at
construction only and is not stored on the project's options — the
`Into<ProjectOptions>` conversion is independent of `memory_limit`. -/
theorem project_new_default_budget_unbounded
    (options : NapiProjectOptions) (result : External (VcArc ProjectVc))
    (hnone : options.memory_limit = none)
    (hok : project_new options = Except.ok result) :
    result.value.turbo_tasks.backend.memory_limit = USIZE_MAX ∧
    result.value.value.options = options.into ∧
    (∀ limit : Option F64,
      ({ options with memory_limit := limit } : NapiProjectOptions).into
        = options.into) := by
  simp only [project_new] at hok
  cases hnew : ProjectVc.new options.into with
  | error e =>
      rw [hnew, exceptBind_error] at hok
      exact absurd hok (by simp)
  | ok project =>
      have hproj : project = { options := options.into } := by
        unfold ProjectVc.new at hnew
        split at hnew
        · exact (Except.ok.injEq _ _ ▸ hnew).symm
        · exact absurd hnew (by simp)
      rw [hnew, exceptBind_ok, Except.ok.injEq] at hok
      subst hok
      subst hproj
      exact ⟨by simp [memory_backend_budget, hnone], rfl, fun limit => rfl⟩

/-- Witness for C8 at a concrete well-nested option record without a
memory limit. -/
theorem project_new_default_budget_unbounded_witness :
    ({ value := { turbo_tasks := { backend := { memory_limit := USIZE_MAX } },
                  value := { options := ⟨"/repo", "/repo/app", true⟩ } } }
        : External (VcArc ProjectVc)).value.turbo_tasks.backend.memory_limit
      = USIZE_MAX ∧
    ({ value := { turbo_tasks := { backend := { memory_limit := USIZE_MAX } },
                  value := { options := ⟨"/repo", "/repo/app", true⟩ } } }
        : External (VcArc ProjectVc)).value.value.options
      = (⟨"/repo", "/repo/app", true, none⟩ : NapiProjectOptions).into ∧
    (∀ limit : Option F64,
      ({ (⟨"/repo", "/repo/app", true, none⟩ : NapiProjectOptions) with
          memory_limit := limit } : NapiProjectOptions).into
        = (⟨"/repo", "/repo/app", true, none⟩ : NapiProjectOptions).into) :=
  project_new_default_budget_unbounded ⟨"/repo", "/repo/app", true, none⟩
    _ rfl (by rfl)

end NextApi

namespace NextCore

/-- C4: `process_compile_time_info`, `process_module_options_context` and
`process_resolve_options_context` return the transition's construction-time
client context values, independent of the upstream input (each is a constant
function of its argument). -/
theorem process_context_ops_constant (t : NextClientChunksTransition)
    (info₁ info₂ : CompileTimeInfoVc)
    (mo₁ mo₂ : ModuleOptionsContextVc)
    (ro₁ ro₂ : ResolveOptionsContextVc) :
    t.process_compile_time_info info₁ = t.client_compile_time_info ∧
    t.process_compile_time_info info₁ = t.process_compile_time_info info₂ ∧
    t.process_module_options_context mo₁
        = t.client_module_options_context ∧
    t.process_module_options_context mo₁
        = t.process_module_options_context mo₂ ∧
    t.process_resolve_options_context ro₁
        = t.client_resolve_options_context ∧
    t.process_resolve_options_context ro₁
        = t.process_resolve_options_context ro₂ :=
  ⟨rfl, rfl, rfl, rfl, rfl, rfl⟩

/-- C5: `process_module` wraps a module that resolves as Ecmascript
chunk-placeable in a `WithChunksAsset` associated with the transition's
client chunking context, and returns any other module unchanged. -/
theorem process_module_wraps_placeable (resolve_from : ResolveFrom)
    (t : NextClientChunksTransition) (asset : ModuleVc)
    (context : ModuleAssetContextVc) :
    (∀ placeable, resolve_from asset = Except.ok (some placeable) →
      t.process_module resolve_from asset context
        = Except.ok
            (ModuleVc.withChunksAsset placeable t.client_chunking_context)) ∧
    (resolve_from asset = Except.ok none →
      t.process_module resolve_from asset context = Except.ok asset) := by
  constructor
  · intro placeable h
    simp [NextClientChunksTransition.process_module, h,
      WithChunksAssetVc.new, WithChunksAssetVc.into]
  · intro h
    simp [NextClientChunksTransition.process_module, h]

/-- Witness for C5 with a concrete resolution oracle, on one module that
resolves as placeable and one that does not. -/
theorem process_module_wraps_placeable_witness :
    (⟨⟨1⟩, ⟨2⟩, ⟨3⟩, ⟨4⟩⟩ : NextClientChunksTransition).process_module
        (fun _ => Except.ok (some ⟨9⟩)) (ModuleVc.asset 0) ⟨0⟩
      = Except.ok (ModuleVc.withChunksAsset ⟨9⟩ ⟨4⟩) ∧
    (⟨⟨1⟩, ⟨2⟩, ⟨3⟩, ⟨4⟩⟩ : NextClientChunksTransition).process_module
        (fun _ => Except.ok none) (ModuleVc.asset 0) ⟨0⟩
      = Except.ok (ModuleVc.asset 0) :=
  ⟨(process_module_wraps_placeable (fun _ => Except.ok (some ⟨9⟩))
      ⟨⟨1⟩, ⟨2⟩, ⟨3⟩, ⟨4⟩⟩ (ModuleVc.asset 0) ⟨0⟩).1 ⟨9⟩ rfl,
   (process_module_wraps_placeable (fun _ => Except.ok none)
      ⟨⟨1⟩, ⟨2⟩, ⟨3⟩, ⟨4⟩⟩ (ModuleVc.asset 0) ⟨0⟩).2 rfl⟩

/-- C6: the three context-substitution operations are total — they are plain
functions whose result is the stored client value for every input — while
`process_module` fails exactly when the engine's capability resolution
fails, and that failure is returned to the caller. -/
theorem transition_totality_and_error_propagation (resolve_from : ResolveFrom)
    (t : NextClientChunksTransition) (asset : ModuleVc)
    (context : ModuleAssetContextVc) (info : CompileTimeInfoVc)
    (mo : ModuleOptionsContextVc) (ro : ResolveOptionsContextVc) :
    t.process_compile_time_info info = t.client_compile_time_info ∧
    t.process_module_options_context mo = t.client_module_options_context ∧
    t.process_resolve_options_context ro = t.client_resolve_options_context ∧
    (∀ e, t.process_module resolve_from asset context = Except.error e ↔
      resolve_from asset = Except.error e) := by
  refine ⟨rfl, rfl, rfl, fun e => ?_⟩
  cases h : resolve_from asset with
  | error e' => simp [NextClientChunksTransition.process_module, h]
  | ok o =>
      cases o <;>
        simp [NextClientChunksTransition.process_module, h,
          WithChunksAssetVc.new, WithChunksAssetVc.into]

/-- C9: calling the same transition's operations twice with identical
inputs yields identical outputs; in this embedding every operation is a
pure function of the transition and its declared inputs, so the two calls
denote the same value. -/
theorem transition_ops_deterministic (resolve_from : ResolveFrom)
    (t : NextClientChunksTransition) (info : CompileTimeInfoVc)
    (mo : ModuleOptionsContextVc) (ro : ResolveOptionsContextVc)
    (asset : ModuleVc) (context : ModuleAssetContextVc) :
    t.process_compile_time_info info = t.process_compile_time_info info ∧
    t.process_module_options_context mo
        = t.process_module_options_context mo ∧
    t.process_resolve_options_context ro
        = t.process_resolve_options_context ro ∧
    t.process_module resolve_from asset context
        = t.process_module resolve_from asset context :=
  ⟨rfl, rfl, rfl, rfl⟩

end NextCore

namespace NextApi

/-- C10: `project_new` converts the optional `memory_limit` by the
saturating semantics of the Rust `as` cast — fractional values are truncated
toward zero (the floor, for nonnegative values), negative values and NaN
become 0 rather than unbounded, and values above `usize::MAX` are clamped to
`usize::MAX`. -/
theorem memory_limit_saturating_cast :
    (∀ (options : NapiProjectOptions) (m : F64),
      options.memory_limit = some m →
        memory_backend_budget options = f64_as_usize m) ∧
    (∀ q : ℚ, 0 ≤ q → q ≤ (USIZE_MAX : ℚ) →
      f64_as_usize (F64.finite q) = Int.toNat ⌊q⌋) ∧
    (∀ q : ℚ, q < 0 → f64_as_usize (F64.finite q) = 0) ∧
    f64_as_usize F64.nan = 0 ∧
    f64_as_usize F64.negInf = 0 ∧
    (∀ q : ℚ, (USIZE_MAX : ℚ) < q →
      f64_as_usize (F64.finite q) = USIZE_MAX) ∧
    f64_as_usize F64.posInf = USIZE_MAX ∧
    (0 : Nat) ≠ USIZE_MAX := by
  refine ⟨?_, ?_, ?_, rfl, rfl, ?_, rfl, by decide⟩
  · intro options m h
    simp [memory_backend_budget, h]
  · intro q h0 hmax
    have hfloor : ⌊q⌋ ≤ (USIZE_MAX : ℤ) := by
      have := Int.floor_le_floor hmax
      rwa [Int.floor_natCast] at this
    have htn : Int.toNat ⌊q⌋ ≤ USIZE_MAX := Int.toNat_le.mpr hfloor
    simp [f64_as_usize, not_lt.mpr h0, Nat.min_eq_left htn]
  · intro q h
    simp [f64_as_usize, h]
  · intro q h
    have h0 : ¬ q < 0 := by
      have : (0 : ℚ) ≤ (USIZE_MAX : ℚ) := by positivity
      exact not_lt.mpr (le_of_lt (lt_of_le_of_lt this h))
    have hfloor : (USIZE_MAX : ℤ) ≤ ⌊q⌋ := by
      have := Int.floor_le_floor (le_of_lt h)
      rwa [Int.floor_natCast] at this
    have htn : USIZE_MAX ≤ Int.toNat ⌊q⌋ := by
      omega
    simp [f64_as_usize, h0, Nat.min_eq_right htn]

/-- Witness for C10 at 7/2 (truncates to 3), -1 (saturates to 0) and 2^64
(clamps to `usize::MAX`). -/
theorem memory_limit_saturating_cast_witness :
    memory_backend_budget ⟨"/repo", "/repo/app", true,
        some (F64.finite (7 / 2))⟩ = 3 ∧
    f64_as_usize (F64.finite (-1)) = 0 ∧
    f64_as_usize (F64.finite ((2 : ℚ) ^ 64)) = USIZE_MAX := by
  refine ⟨?_, memory_limit_saturating_cast.2.2.1 (-1) (by norm_num), ?_⟩
  · rw [memory_limit_saturating_cast.1 _ (F64.finite (7 / 2)) rfl,
      memory_limit_saturating_cast.2.1 (7 / 2) (by norm_num) ?_]
    · norm_num
      decide
    · rw [USIZE_MAX]
      push_cast
      norm_num
  · refine memory_limit_saturating_cast.2.2.2.2.2.1 ((2 : ℚ) ^ 64) ?_
    rw [USIZE_MAX]
    push_cast
    norm_num

end NextApi
